import Mathlib

/-!
Shallow embedding of `src/IP_portfolio_valuation.py` (the valuation core:
classes `IPAsset`, `LicensedIP`, `InternalIP`, `SubscriptionIP`, and the
portfolio total). Real-number arithmetic of the Python floats is embedded
as exact rational arithmetic (`ℚ`).
-/

/-- Embeds the Python class `IPAsset.__init__`: fields `name`, `cash_flows`,
`discount_rate`. -/
structure IPAsset where
  name : String
  cash_flows : List ℚ
  discount_rate : ℚ
deriving DecidableEq

/-- Helper for the list comprehension
`[cf / (1 + r)**i for i, cf in enumerate(cash_flows, start=1)]` followed by
`np.sum`: sums `cf / (1+r)^i` with `i` counting from the given start index. -/
def npvFrom (r : ℚ) : List ℚ → Nat → ℚ
  | [], _ => 0
  | cf :: rest, i => cf / (1 + r) ^ i + npvFrom r rest (i + 1)

/-- Embeds `IPAsset.net_present_value`:
`np.sum([cf / (1 + self.discount_rate)**i for i, cf in enumerate(self.cash_flows, start=1)])`.
`enumerate(..., start=1)` makes the index 1-based. -/
def IPAsset.net_present_value (a : IPAsset) : ℚ :=
  npvFrom a.discount_rate a.cash_flows 1

/-- Embeds `class LicensedIP(IPAsset): pass` — identical fields and
method, kept as a distinct constructor for the variant. -/
def LicensedIP (name : String) (cash_flows : List ℚ) (discount_rate : ℚ) : IPAsset :=
  { name := name, cash_flows := cash_flows, discount_rate := discount_rate }

/-- Embeds the Python class `InternalIP`: the base fields set by
`super().__init__(name, [], discount_rate)` plus `sale_value` and
`years_until_sale`. -/
structure InternalIP where
  base : IPAsset
  sale_value : ℚ
  years_until_sale : Nat
deriving DecidableEq

/-- Embeds `InternalIP.__init__(name, sale_value, years_until_sale, discount_rate)`:
calls the base constructor with an empty cash-flow list, then stores the two
extra fields. -/
def InternalIP.make (name : String) (sale_value : ℚ) (years_until_sale : Nat)
    (discount_rate : ℚ) : InternalIP :=
  { base := { name := name, cash_flows := [], discount_rate := discount_rate }
    sale_value := sale_value
    years_until_sale := years_until_sale }

/-- Embeds the overriding method `InternalIP.net_present_value`:
`self.sale_value / (1 + self.discount_rate)**self.years_until_sale`. -/
def InternalIP.net_present_value (a : InternalIP) : ℚ :=
  a.sale_value / (1 + a.base.discount_rate) ^ a.years_until_sale

/-- Embeds `SubscriptionIP.__init__(name, total_app_cash_flows, ip_allocation_percent, discount_rate)`:
`allocated_flows = [cf * ip_allocation_percent for cf in total_app_cash_flows]`
then `super().__init__(name, allocated_flows, discount_rate)`. The class adds
no fields and no methods, so the instance is an `IPAsset`. -/
def SubscriptionIP (name : String) (total_app_cash_flows : List ℚ)
    (ip_allocation_percent : ℚ) (discount_rate : ℚ) : IPAsset :=
  { name := name
    cash_flows := total_app_cash_flows.map (fun cf => cf * ip_allocation_percent)
    discount_rate := discount_rate }

/-- A member of the heterogeneous Python list
`portfolio = [licensed, internal, sub_ip]`: licensed and subscription assets
are plain `IPAsset`s (no override), internal assets carry the override. -/
inductive PortfolioAsset where
  | licensed (a : IPAsset)
  | internal (a : InternalIP)
  | subscription (a : IPAsset)

/-- Dynamic dispatch of `ip.net_present_value()` over the portfolio members. -/
def PortfolioAsset.net_present_value : PortfolioAsset → ℚ
  | .licensed a => a.net_present_value
  | .internal a => a.net_present_value
  | .subscription a => a.net_present_value

/-- Embeds `total_value = sum(ip.net_present_value() for ip in portfolio)`. -/
def total_value (portfolio : List PortfolioAsset) : ℚ :=
  (portfolio.map PortfolioAsset.net_present_value).sum

/-! ### Helper lemmas about the base discounting sum -/

/-- The recursive sum `npvFrom` equals an indexed finite sum: entry `j`
(0-based) of the list is discounted by `(1+r)^(k+j)` when the enumeration
starts at `k`. -/
theorem npvFrom_eq_sum (r : ℚ) (cfs : List ℚ) (k : Nat) :
    npvFrom r cfs k =
      ∑ j ∈ Finset.range cfs.length, cfs.getD j 0 / (1 + r) ^ (k + j) := by
  induction cfs generalizing k with
  | nil => simp [npvFrom]
  | cons cf rest ih =>
    rw [npvFrom, ih (k + 1), List.length_cons, Finset.sum_range_succ']
    simp only [List.getD_cons_succ, List.getD_cons_zero, Nat.add_zero]
    rw [add_comm]
    congr 1
    refine Finset.sum_congr rfl fun j _ => ?_
    rw [show k + 1 + j = k + (j + 1) by omega]

/-- With discount rate `0`, every discount factor is `1`, so `npvFrom`
reduces to the plain list sum. -/
theorem npvFrom_rate_zero (cfs : List ℚ) (k : Nat) : npvFrom 0 cfs k = cfs.sum := by
  induction cfs generalizing k with
  | nil => rfl
  | cons cf rest ih => simp [npvFrom, ih]

/-- Scaling every cash flow by `a` scales the discounted sum by `a`. -/
theorem npvFrom_map_mul (r a : ℚ) (cfs : List ℚ) (k : Nat) :
    npvFrom r (cfs.map (fun cf => cf * a)) k = a * npvFrom r cfs k := by
  induction cfs generalizing k with
  | nil => simp [npvFrom]
  | cons cf rest ih =>
    simp only [List.map_cons, npvFrom, ih]
    ring

/-! ### Claim theorems -/

/-- C1: for every cash-flow sequence and discount rate `r > -1`, the base
`IPAsset.net_present_value` is the sum over `i = 1..n` of `cf[i] / (1+r)^i`
(first entry discounted by exactly one period), and for a sequence whose only
non-zero entry is `cf` at 1-based position `i`, the result is `cf / (1+r)^i`. -/
theorem C1_base_npv_indexed_sum (a : IPAsset) (h : a.discount_rate > -1) :
    (a.net_present_value =
      ∑ j ∈ Finset.range a.cash_flows.length,
        a.cash_flows.getD j 0 / (1 + a.discount_rate) ^ (j + 1)) ∧
    ∀ (i : Nat) (cf : ℚ), 1 ≤ i → i ≤ a.cash_flows.length →
      (∀ j, j < a.cash_flows.length → j ≠ i - 1 → a.cash_flows.getD j 0 = 0) →
      a.cash_flows.getD (i - 1) 0 = cf →
      a.net_present_value = cf / (1 + a.discount_rate) ^ i := by
  have hsum : a.net_present_value =
      ∑ j ∈ Finset.range a.cash_flows.length,
        a.cash_flows.getD j 0 / (1 + a.discount_rate) ^ (j + 1) := by
    rw [IPAsset.net_present_value, npvFrom_eq_sum]
    exact Finset.sum_congr rfl fun j _ => by rw [Nat.add_comm 1 j]
  refine ⟨hsum, fun i cf h1 h2 hz hcf => ?_⟩
  rw [hsum, Finset.sum_eq_single (i - 1)]
  · rw [hcf, show i - 1 + 1 = i by omega]
  · intro j hj hne
    rw [hz j (Finset.mem_range.mp hj) hne, zero_div]
  · intro hmem
    exact absurd (Finset.mem_range.mpr (by omega)) hmem

/-- Witness for C1 at a concrete asset: cash flows `[0, 3, 0]` at rate `1`
value to `3 / (1+1)^2`. -/
theorem C1_base_npv_indexed_sum_witness :
    (IPAsset.mk "w" [0, 3, 0] 1).net_present_value = 3 / ((1 : ℚ) + 1) ^ 2 :=
  (C1_base_npv_indexed_sum (IPAsset.mk "w" [0, 3, 0] 1) (by norm_num)).2
    2 3 (by norm_num) (by norm_num) (by decide) (by decide)

/-- C2: for every name, sale value, positive years-until-sale and rate
`r > -1`, `InternalIP.net_present_value` returns `s / (1+r)^y`, the
constructor stores an empty cash-flow sequence, and the NPV result is
independent of the `cash_flows` field. -/
theorem C2_internal_npv (name : String) (s : ℚ) (y : Nat) (r : ℚ)
    (hy : 0 < y) (hr : r > -1) :
    (InternalIP.make name s y r).net_present_value = s / (1 + r) ^ y ∧
    (InternalIP.make name s y r).base.cash_flows = [] ∧
    ∀ cfs : List ℚ,
      (InternalIP.mk (IPAsset.mk name cfs r) s y).net_present_value =
        (InternalIP.make name s y r).net_present_value :=
  ⟨rfl, rfl, fun _ => rfl⟩

/-- Witness for C2: sale value `50000`, three years until sale, rate `2/25`. -/
theorem C2_internal_npv_witness :
    (InternalIP.make "Internal IP" 50000 3 (2/25)).net_present_value =
      50000 / (1 + 2/25) ^ 3 :=
  (C2_internal_npv "Internal IP" 50000 3 (2/25) (by norm_num) (by norm_num)).1

/-- C3: for every revenue sequence and allocation fraction `a ∈ [0,1]`, the
`SubscriptionIP` constructor stores the input sequence with every entry
multiplied by `a` (same length, entrywise at every index), and its NPV is
exactly the base `IPAsset` algorithm applied to that derived sequence. -/
theorem C3_subscription_derived (name : String) (rev : List ℚ) (a r : ℚ)
    (h0 : 0 ≤ a) (h1 : a ≤ 1) :
    (SubscriptionIP name rev a r).cash_flows.length = rev.length ∧
    (∀ j, j < rev.length →
      (SubscriptionIP name rev a r).cash_flows.getD j 0 = rev.getD j 0 * a) ∧
    (SubscriptionIP name rev a r).net_present_value =
      IPAsset.net_present_value
        (IPAsset.mk name (rev.map (fun cf => cf * a)) r) := by
  refine ⟨by simp [SubscriptionIP], fun j hj => ?_, rfl⟩
  have hj2 : j < ((SubscriptionIP name rev a r).cash_flows).length := by
    simpa [SubscriptionIP] using hj
  rw [List.getD_eq_getElem _ _ hj2, List.getD_eq_getElem _ _ hj]
  simp [SubscriptionIP]

/-- Witness for C3: revenue `[50000, 52000]`, allocation `1/5`, rate `2/25`. -/
theorem C3_subscription_derived_witness :
    (SubscriptionIP "Subscription IP" [50000, 52000] (1/5) (2/25)).cash_flows.length = 2 ∧
    (SubscriptionIP "Subscription IP" [50000, 52000] (1/5) (2/25)).cash_flows.getD 0 0 =
      50000 * (1/5) :=
  ⟨(C3_subscription_derived "Subscription IP" [50000, 52000] (1/5) (2/25)
      (by norm_num) (by norm_num)).1,
   by
    rw [(C3_subscription_derived "Subscription IP" [50000, 52000] (1/5) (2/25)
        (by norm_num) (by norm_num)).2.1 0 (by norm_num)]
    norm_num⟩

/-- C4: with discount rate exactly `0`, the base NPV equals the plain
arithmetic sum of the cash-flow entries. -/
theorem C4_zero_rate_sum (a : IPAsset) (h : a.discount_rate = 0) :
    a.net_present_value = a.cash_flows.sum := by
  rw [IPAsset.net_present_value, h, npvFrom_rate_zero]

/-- Witness for C4: cash flows `[1, 2, 3]` at rate `0` sum to `6`. -/
theorem C4_zero_rate_sum_witness :
    (IPAsset.mk "w" [1, 2, 3] 0).net_present_value = [(1 : ℚ), 2, 3].sum :=
  C4_zero_rate_sum (IPAsset.mk "w" [1, 2, 3] 0) rfl

/-- C5: for a fixed revenue sequence and rate `r > -1`, the subscription NPV
is linear in the allocation fraction: NPV at allocation `a ∈ [0,1]` equals
`a` times the NPV at allocation `1`. -/
theorem C5_subscription_linear (name : String) (rev : List ℚ) (a r : ℚ)
    (hr : r > -1) (h0 : 0 ≤ a) (h1 : a ≤ 1) :
    (SubscriptionIP name rev a r).net_present_value =
      a * (SubscriptionIP name rev 1 r).net_present_value := by
  show npvFrom r (rev.map (fun cf => cf * a)) 1 =
    a * npvFrom r (rev.map (fun cf => cf * 1)) 1
  rw [npvFrom_map_mul, npvFrom_map_mul]
  ring

/-- Witness for C5: revenue `[100, 200]`, allocation `1/4`, rate `1`. -/
theorem C5_subscription_linear_witness :
    (SubscriptionIP "s" [100, 200] (1/4) 1).net_present_value =
      (1/4) * (SubscriptionIP "s" [100, 200] 1 1).net_present_value :=
  C5_subscription_linear "s" [100, 200] (1/4) 1 (by norm_num) (by norm_num)
    (by norm_num)

/-- C6: for fixed sale value `s > 0` and rate `r > 0`, the internal-IP NPV is
strictly decreasing in `years_until_sale`: `y1 < y2` gives a strictly greater
NPV at `y1`. -/
theorem C6_internal_decreasing (name : String) (s r : ℚ) (y1 y2 : Nat)
    (hs : 0 < s) (hr : 0 < r) (hy1 : 0 < y1) (hlt : y1 < y2) :
    (InternalIP.make name s y2 r).net_present_value <
      (InternalIP.make name s y1 r).net_present_value := by
  show s / (1 + r) ^ y2 < s / (1 + r) ^ y1
  have h1 : (1 : ℚ) < 1 + r := by linarith
  exact div_lt_div_of_pos_left hs (pow_pos (by linarith) y1)
    (pow_lt_pow_right₀ h1 hlt)

/-- Witness for C6: sale value `5`, rate `1`, years `1 < 2`. -/
theorem C6_internal_decreasing_witness :
    (InternalIP.make "i" 5 2 1).net_present_value <
      (InternalIP.make "i" 5 1 1).net_present_value :=
  C6_internal_decreasing "i" 5 1 1 2 (by norm_num) (by norm_num) (by norm_num)
    (by norm_num)

/-- C7: the total portfolio value of one licensed, one internal and one
subscription asset equals the sum of the three individual NPVs. -/
theorem C7_portfolio_additivity (licensed : IPAsset) (internal : InternalIP)
    (sub_ip : IPAsset) :
    total_value [.licensed licensed, .internal internal, .subscription sub_ip] =
      licensed.net_present_value + internal.net_present_value +
        sub_ip.net_present_value := by
  simp [total_value, PortfolioAsset.net_present_value]
  ring

/-- C8: `net_present_value` is a pure, deterministic function of the
construction-time state. The embedding is purely functional, so repeated
calls on one instance are definitionally equal and no field ever changes;
the remaining content is that the result depends only on the fields the
method reads: any two base assets (licensed or subscription) agreeing on
`cash_flows` and `discount_rate`, and any two internal assets agreeing on
`sale_value`, `years_until_sale` and `discount_rate`, yield identical NPVs
— in particular, two instances constructed with identical inputs do. -/
theorem C8_npv_pure (a1 a2 : IPAsset) (b1 b2 : InternalIP)
    (hcf : a1.cash_flows = a2.cash_flows)
    (hr : a1.discount_rate = a2.discount_rate)
    (hs : b1.sale_value = b2.sale_value)
    (hy : b1.years_until_sale = b2.years_until_sale)
    (hbr : b1.base.discount_rate = b2.base.discount_rate) :
    a1.net_present_value = a2.net_present_value ∧
    b1.net_present_value = b2.net_present_value := by
  constructor
  · rw [IPAsset.net_present_value, IPAsset.net_present_value, hcf, hr]
  · rw [InternalIP.net_present_value, InternalIP.net_present_value, hs, hy, hbr]

/-- Witness for C8: differently named assets with identical valuation inputs
have equal NPVs. -/
theorem C8_npv_pure_witness :
    (IPAsset.mk "x" [7] 1).net_present_value =
      (IPAsset.mk "y" [7] 1).net_present_value ∧
    (InternalIP.make "x" 9 2 1).net_present_value =
      (InternalIP.make "y" 9 2 1).net_present_value :=
  C8_npv_pure (IPAsset.mk "x" [7] 1) (IPAsset.mk "y" [7] 1)
    (InternalIP.make "x" 9 2 1) (InternalIP.make "y" 9 2 1)
    rfl rfl rfl rfl rfl

/-- C9: concrete scenario — rate `0.10`, licensed cash flows
`[1000, 1000, 1000]` — gives `1000/1.1 + 1000/1.21 + 1000/1.331`, which lies
within `0.01` of `2486.85`. -/
theorem C9_concrete_licensed :
    (LicensedIP "Licensed IP" [1000, 1000, 1000] (1/10)).net_present_value =
      1000 / 1.1 + 1000 / 1.21 + 1000 / 1.331 ∧
    2486.85 < (LicensedIP "Licensed IP" [1000, 1000, 1000] (1/10)).net_present_value ∧
    (LicensedIP "Licensed IP" [1000, 1000, 1000] (1/10)).net_present_value < 2486.86 := by
  refine ⟨?_, ?_, ?_⟩ <;>
    norm_num [LicensedIP, IPAsset.net_present_value, npvFrom]

/-- C10: an asset with an empty cash-flow sequence has NPV `0` for every
discount rate — the base algorithm is total on the empty sequence and
returns the empty sum — and likewise for the licensed and subscription
constructors given empty input sequences. -/
theorem C10_empty_npv_zero (name : String) (r a : ℚ) :
    (IPAsset.mk name [] r).net_present_value = 0 ∧
    (LicensedIP name [] r).net_present_value = 0 ∧
    (SubscriptionIP name [] a r).net_present_value = 0 :=
  ⟨rfl, rfl, rfl⟩
